import Mathlib

/-!
Verification of the `ruast` syntax-tree builder and printer.

The development shallowly embeds the repository's data model and printers:

* `Ruast.Crate`, `Crate.add_item`, the `Index` impl (`src/lib.rs`);
* the `Type` family with its `Display` renderer and its `TokenStream`
  lowering (`src/ty.rs`), here called `Type'` (the name `Type` is a Lean
  keyword);
* the `Token`/`TokenStream` layer, the binary-expression precedence
  printer, `Path`, `Const`, `Param`, `Item` and `try_remove_item_by_id`
  are absent from `src/` (they live in `token.rs` / `expr.rs` /
  `stmt.rs`, which are not shipped); those are modelled from the spec
  (each such definition says so in its doc comment).

Strings are compared either literally or through `lexes`, which drops
space characters: two renderings agree "up to whitespace placement"
exactly when their `lexes` agree.
-/

namespace Ruast

/-! ## Token model -/

/-- Modelled from the spec: keyword tokens used by the type lowering
(`token.rs` is absent from `src/`; the variants are those `src/ty.rs`
pushes). -/
inductive KeywordToken where
  | Mut
  | Const
  | Fn
  | Dyn
  | Impl
deriving DecidableEq, Repr

/-- Modelled from the spec: binary-operator tokens used by the type
lowering (`token.rs` is absent from `src/`). -/
inductive BinOpToken where
  | And
  | Star
  | Plus
deriving DecidableEq, Repr

/-- Modelled from the spec: delimiter kinds (`token.rs` is absent from
`src/`). -/
inductive Delimiter where
  | Parenthesis
  | Bracket
  | Brace
deriving DecidableEq, Repr

/-- Modelled from the spec: a lexical atom — identifier, literal,
keyword, punctuation, lifetime, or delimiter-open/close (`token.rs` is
absent from `src/`; the variants are those the tests and `src/ty.rs`
use). -/
inductive TokenKind where
  | Ident (s : String)
  | Lit (s : String)
  | Keyword (k : KeywordToken)
  | BinOp (op : BinOpToken)
  | Lifetime (s : String)
  | OpenDelim (d : Delimiter)
  | CloseDelim (d : Delimiter)
  | Comma
  | Colon
  | Semi
  | Not
  | RArrow
  | Dot
  | ModSep
deriving DecidableEq, Repr

/-- Modelled from the spec: a token is its lexical kind plus a boolean
`joint` flag meaning "render with no separating space before the next
token". -/
structure Token where
  kind : TokenKind
  joint : Bool := false
deriving DecidableEq, Repr

/-- Constructor mirroring `Token::ident`. -/
def Token.ident (s : String) : Token := ⟨TokenKind.Ident s, false⟩

/-- Constructor mirroring `Token::lit`. -/
def Token.lit (s : String) : Token := ⟨TokenKind.Lit s, false⟩

/-- Mirrors `Token::into_joint`: the same token with the joint flag set. -/
def Token.into_joint (t : Token) : Token := ⟨t.kind, true⟩

/-- Modelled from the spec: the source text of a single token. -/
def TokenKind.text : TokenKind → String
  | .Ident s => s
  | .Lit s => s
  | .Keyword .Mut => "mut"
  | .Keyword .Const => "const"
  | .Keyword .Fn => "fn"
  | .Keyword .Dyn => "dyn"
  | .Keyword .Impl => "impl"
  | .BinOp .And => "&"
  | .BinOp .Star => "*"
  | .BinOp .Plus => "+"
  | .Lifetime s => "'" ++ s
  | .OpenDelim .Parenthesis => "("
  | .OpenDelim .Bracket => "["
  | .OpenDelim .Brace => "\x7b"
  | .CloseDelim .Parenthesis => ")"
  | .CloseDelim .Bracket => "]"
  | .CloseDelim .Brace => "\x7d"
  | .Comma => ","
  | .Colon => ":"
  | .Semi => ";"
  | .Not => "!"
  | .RArrow => "->"
  | .Dot => "."
  | .ModSep => "::"

/-- Text of a token (the joint flag only affects spacing, not text). -/
def Token.text (t : Token) : String := t.kind.text

/-- A `TokenStream` is an ordered sequence of tokens; `push` and
`extend` are list appends. -/
abbrev TokenStream := List Token

/-- Mirrors `TokenStream::new`. -/
def TokenStream.new : TokenStream := []

/-- Mirrors `TokenStream::push`. -/
def TokenStream.push (ts : TokenStream) (t : Token) : TokenStream := ts ++ [t]

/-- Mirrors `TokenStream::extend`. -/
def TokenStream.extend (ts other : TokenStream) : TokenStream := ts ++ other

/-- Modelled from the spec: rendering text from a stream inserts a
single space between any two tokens unless the first is marked joint,
in which case no space is inserted (`token.rs` is absent from `src/`). -/
def TokenStream.render : TokenStream → String
  | [] => ""
  | [t] => t.text
  | t :: t2 :: ts => t.text ++ (if t.joint then "" else " ") ++ TokenStream.render (t2 :: ts)

/-! ## Container (`src/lib.rs`) -/

/-- Modelled from the spec: an attribute attached to the crate, stored
verbatim (the attribute model lives outside `src/`); only its presence
matters here. -/
structure Attribute where
  text : String
deriving DecidableEq, Repr

/-- Modelled from the spec: an item is identified by a name usable for
lookup/removal and has a deterministic rendering (`stmt.rs`, which
defines the item variants, is absent from `src/`). -/
structure Item where
  ident : String
  render : String
deriving DecidableEq, Repr

/-- The `Crate` struct of `src/lib.rs`: attributes plus an ordered item
list. -/
structure Crate where
  attrs : List Attribute
  items : List Item
deriving DecidableEq, Repr

/-- `Crate::new` (`src/lib.rs`). -/
def Crate.new : Crate := ⟨[], []⟩

/-- `Crate::add_item` (`src/lib.rs`): pushes the item and returns
nothing but the updated crate (the Rust method's return type is unit). -/
def Crate.add_item (c : Crate) (item : Item) : Crate :=
  { c with items := c.items ++ [item] }

/-- The `Index<usize>` impl for `Crate` (`src/lib.rs`): `&self.items[index]`
panics out of bounds, embedded as an `Option`. -/
def Crate.index (c : Crate) (i : Nat) : Option Item := c.items[i]?

/-- Modelled from the spec: the container reports empty when it holds no
items (`is_empty` is exercised by `tests/test.rs` but absent from
`src/`). -/
def Crate.is_empty (c : Crate) : Bool := c.items.isEmpty

/-- Modelled from the spec: `try_remove_item_by_id` removes the item
matching the given name and is a no-op, not an error, if no match exists
(the method is exercised by `tests/test.rs` but absent from `src/`). -/
def Crate.try_remove_item_by_id (c : Crate) (id : String) : Crate :=
  match c.items.findIdx? (fun item => item.ident == id) with
  | some i => ⟨c.attrs, c.items.eraseIdx i⟩
  | none => c

/-- Sample item used to instantiate the container theorems. -/
def sampleItem : Item := ⟨"main", "fn main()"⟩

/-- Sample one-item crate used to instantiate the container theorems. -/
def sampleCrate : Crate := ⟨[], [sampleItem]⟩

/-- C5: rendering a token stream inserts exactly one space between each
pair of consecutive tokens, except that no space follows a token whose
joint flag is set; `foo`(joint) `.`(joint) `bar` renders as `foo.bar`,
and the same tokens without joint flags render as `foo . bar`. -/
theorem c5_joint_token_rendering :
    (∀ (t u : Token) (rest : List Token),
      TokenStream.render (t :: u :: rest) =
        t.text ++ (if t.joint then "" else " ") ++ TokenStream.render (u :: rest))
    ∧ TokenStream.render
        [Token.into_joint (Token.ident "foo"), Token.into_joint ⟨TokenKind.Dot, false⟩,
          Token.ident "bar"] = "foo.bar"
    ∧ TokenStream.render
        [Token.ident "foo", ⟨TokenKind.Dot, false⟩, Token.ident "bar"] = "foo . bar" := by
  refine ⟨fun t u rest => rfl, by decide, by decide⟩

/-- C9: indexed access into the crate returns the stored item whenever
the index is below the current item count, and fails (returns `none`,
the embedding of the out-of-range panic) exactly when the index is out
of the current bounds. -/
theorem c9_index_in_bounds :
    ∀ (c : Crate) (i : Nat),
      (∀ h : i < c.items.length, Crate.index c i = some (c.items.get ⟨i, h⟩))
      ∧ (Crate.index c i = none ↔ c.items.length ≤ i) := by
  intro c i
  constructor
  · intro h
    simp [Crate.index, List.getElem?_eq_getElem h]
  · simp [Crate.index, List.getElem?_eq_none_iff]

/-- Witness for C9 at a concrete one-item crate. -/
theorem c9_index_in_bounds_witness :
    Crate.index sampleCrate 0 = some sampleItem
    ∧ (Crate.index sampleCrate 1 = none ↔ sampleCrate.items.length ≤ 1) := by
  constructor
  · have h := (c9_index_in_bounds sampleCrate 0).1 (by decide)
    simpa using h
  · exact (c9_index_in_bounds sampleCrate 1).2

/-- C2: `add_item` does append the item — the appended item sits at
index `c.items.length` (the pre-push length) and indexing there yields
an item with the same rendering — but `Crate::add_item` in `src/lib.rs`
returns `()`, not that index, so nothing is returned for later lookup. -/
theorem c2_add_item_appends :
    ∀ (c : Crate) (item : Item),
      Crate.index (Crate.add_item c item) c.items.length = some item
      ∧ (Crate.index (Crate.add_item c item) c.items.length).map Item.render
          = some item.render := by
  intro c item
  have h : Crate.index (Crate.add_item c item) c.items.length = some item := by
    simp [Crate.index, Crate.add_item]
  exact ⟨h, by rw [h]; rfl⟩

/-- C3: removing by a name that matches no item leaves the crate
unchanged (a no-op, not an error — the operation is total by
construction), and removing the name of the only item leaves the crate
reporting empty. -/
theorem c3_try_remove_item_by_id :
    ∀ (c : Crate) (id : String),
      ((∀ it ∈ c.items, it.ident ≠ id) → Crate.try_remove_item_by_id c id = c)
      ∧ (∀ it, c.items = [it] →
          (Crate.try_remove_item_by_id c it.ident).is_empty = true) := by
  intro c id
  constructor
  · intro h
    have hnone : c.items.findIdx? (fun item => item.ident == id) = none := by
      rw [List.findIdx?_eq_none_iff]
      intro it hit
      simpa using h it hit
    simp [Crate.try_remove_item_by_id, hnone]
  · intro it hits
    simp [Crate.try_remove_item_by_id, hits, List.findIdx?_cons, Crate.is_empty]

/-- Witness for C3 at a concrete one-item crate. -/
theorem c3_try_remove_item_by_id_witness :
    Crate.try_remove_item_by_id sampleCrate "absent" = sampleCrate
    ∧ (Crate.try_remove_item_by_id sampleCrate "main").is_empty = true := by
  constructor
  · exact (c3_try_remove_item_by_id sampleCrate "absent").1 (by decide)
  · exact (c3_try_remove_item_by_id sampleCrate "main").2 sampleItem rfl

/-! ## Type model (`src/ty.rs`) -/

/-- Shorthand for a keyword token. -/
def Token.keyword (k : KeywordToken) : Token := ⟨TokenKind.Keyword k, false⟩

/-- Shorthand for a binary-operator token. -/
def Token.binop (b : BinOpToken) : Token := ⟨TokenKind.BinOp b, false⟩

/-- Shorthand for a lifetime token. -/
def Token.lifetime (s : String) : Token := ⟨TokenKind.Lifetime s, false⟩

/-- Shorthand for an opening delimiter token. -/
def Token.openDelim (d : Delimiter) : Token := ⟨TokenKind.OpenDelim d, false⟩

/-- Shorthand for a closing delimiter token. -/
def Token.closeDelim (d : Delimiter) : Token := ⟨TokenKind.CloseDelim d, false⟩

/-- Shorthand for the comma token. -/
def Token.comma : Token := ⟨TokenKind.Comma, false⟩

/-- Shorthand for the colon token. -/
def Token.colon : Token := ⟨TokenKind.Colon, false⟩

/-- Shorthand for the semicolon token. -/
def Token.semi : Token := ⟨TokenKind.Semi, false⟩

/-- Shorthand for the `!` token. -/
def Token.notTok : Token := ⟨TokenKind.Not, false⟩

/-- Shorthand for the `->` token. -/
def Token.rarrow : Token := ⟨TokenKind.RArrow, false⟩

/-- Interleaves a separator token between the given streams, the way the
source loops push a separator before every element except the first. -/
def TokenStream.joinSep (sep : Token) : List TokenStream → TokenStream
  | [] => []
  | [x] => x
  | x :: y :: rest => x ++ [sep] ++ TokenStream.joinSep sep (y :: rest)

/-- Joins strings with a separator, the way `Vec::join` does in the
source's display loops. -/
def joinSepStr (sep : String) : List String → String
  | [] => ""
  | [x] => x
  | x :: y :: rest => x ++ sep ++ joinSepStr sep (y :: rest)

/-- Modelled from the spec: a path is an ordered sequence of segments,
each an identifier (`expr.rs`, which defines `Path`, is absent from
`src/`; generic segment arguments are not modelled). -/
structure Path where
  segments : List String
deriving DecidableEq, Repr

/-- Modelled from the spec: path text joins segments with `::`. -/
def Path.display (p : Path) : String := joinSepStr "::" p.segments

/-- Modelled from the spec: path tokens are identifiers glued to `::`
separators by joint flags, so a path renders without internal spaces. -/
def pathTokens : List String → TokenStream
  | [] => []
  | [s] => [Token.ident s]
  | s :: s2 :: rest =>
      Token.into_joint (Token.ident s) :: Token.into_joint ⟨TokenKind.ModSep, false⟩ ::
        pathTokens (s2 :: rest)

/-- Token lowering of a path. -/
def Path.toTokens (p : Path) : TokenStream := pathTokens p.segments

/-- Modelled from the spec: a constant expression node (array lengths);
`expr.rs` is absent from `src/`, so the node is carried as its rendered
text. -/
structure Const where
  val : String
deriving DecidableEq, Repr

/-- Modelled from the spec: a constant renders as its text. -/
def Const.display (c : Const) : String := c.val

/-- Modelled from the spec: a constant lowers to its literal token. -/
def Const.toTokens (c : Const) : TokenStream := [Token.lit c.val]

/-- The `PtrKind` enum of `src/ty.rs`. -/
inductive PtrKind where
  | Const
  | Mut
deriving DecidableEq, Repr

/-- `Display` for `PtrKind` (`src/ty.rs`). -/
def PtrKind.display : PtrKind → String
  | .Const => "const"
  | .Mut => "mut"

/-- `From<PtrKind> for TokenStream` (`src/ty.rs`). -/
def PtrKind.toTokens : PtrKind → TokenStream
  | .Mut => [Token.keyword .Mut]
  | .Const => [Token.keyword .Const]

mutual

/-- The `GenericParam` struct of `src/ty.rs`: an identifier plus bounds. -/
inductive GenericParam where
  | mk (ident : String) (bounds : List GenericBound)

/-- The `GenericBound` enum of `src/ty.rs`. -/
inductive GenericBound where
  | Trait (tr : PolyTraitRef)
  | Outlives (lifetime : String)

/-- The `PolyTraitRef` struct of `src/ty.rs`. -/
inductive PolyTraitRef where
  | mk (bound_generic_params : List GenericParam) (trait_ref : Path)

end

/-- `Display` for `PolyTraitRef` (`src/ty.rs`): the non-empty
`bound_generic_params` branch is an empty `TODO`, so only the trait
path prints. -/
def PolyTraitRef.display : PolyTraitRef → String
  | .mk _ trait_ref => trait_ref.display

/-- `From<PolyTraitRef> for TokenStream` (`src/ty.rs`): only the trait
path is lowered. -/
def PolyTraitRef.toTokens : PolyTraitRef → TokenStream
  | .mk _ trait_ref => trait_ref.toTokens

/-- `Display` for `GenericBound` (`src/ty.rs`). -/
def GenericBound.display : GenericBound → String
  | .Trait tr => tr.display
  | .Outlives l => "'" ++ l

/-- `From<GenericBound> for TokenStream` (`src/ty.rs`). -/
def GenericBound.toTokens : GenericBound → TokenStream
  | .Trait tr => tr.toTokens
  | .Outlives l => [Token.lifetime l]

/-- The `TraitObject` struct of `src/ty.rs`. -/
structure TraitObject where
  is_dyn : Bool
  bounds : List GenericBound

/-- `Display` for `TraitObject` (`src/ty.rs`): optional `dyn `, then the
bounds joined with ` + `. -/
def TraitObject.display (t : TraitObject) : String :=
  (if t.is_dyn then "dyn " else "") ++
    joinSepStr " + " (t.bounds.map GenericBound.display)

/-- `From<TraitObject> for TokenStream` (`src/ty.rs`). -/
def TraitObject.toTokens (t : TraitObject) : TokenStream :=
  (if t.is_dyn then [Token.keyword .Dyn] else []) ++
    TokenStream.joinSep (Token.binop .Plus) (t.bounds.map GenericBound.toTokens)

/-- The `ImplTrait` struct of `src/ty.rs`. -/
structure ImplTrait where
  bounds : List GenericBound

/-- `Display` for `ImplTrait` (`src/ty.rs`): `impl ` then the bounds
joined with ` + `. -/
def ImplTrait.display (i : ImplTrait) : String :=
  "impl " ++ joinSepStr " + " (i.bounds.map GenericBound.display)

/-- `From<ImplTrait> for TokenStream` (`src/ty.rs`). -/
def ImplTrait.toTokens (i : ImplTrait) : TokenStream :=
  [Token.keyword .Impl] ++
    TokenStream.joinSep (Token.binop .Plus) (i.bounds.map GenericBound.toTokens)

mutual

/-- The `Type` enum of `src/ty.rs` (named `Type'` because `Type` is a
Lean keyword). -/
inductive Type' where
  | Slice (ty : Type')
  | Array (ty : Type') (len : Const)
  | Ptr (p : Ptr)
  | Ref (r : Ref)
  | BareFn (f : BareFn)
  | Never
  | Tuple (tys : List Type')
  | Path (p : Ruast.Path)
  | TraitObject (t : Ruast.TraitObject)
  | ImplTrait (i : Ruast.ImplTrait)
  | Infer
  | ImplicitSelf
  | Err

/-- The `MutTy` struct of `src/ty.rs`: a mutability flag plus the
pointee type. -/
inductive MutTy where
  | mk (mutable : Bool) (ty : Type')

/-- The `Ref` struct of `src/ty.rs`: an optional lifetime plus a
`MutTy`. -/
inductive Ref where
  | mk (lifetime : Option String) (ty : MutTy)

/-- The `Ptr` struct of `src/ty.rs`: the pointee plus a `PtrKind`. -/
inductive Ptr where
  | mk (ty : Type') (kind : PtrKind)

/-- The `BareFn` struct of `src/ty.rs`: generic parameters, inputs and
an output type. -/
inductive BareFn where
  | mk (generic_params : List GenericParam) (inputs : List Param) (output : Type')

/-- Modelled from the spec: a function parameter, a name pattern plus a
type (`stmt.rs`, which defines `Param`, is absent from `src/`; the
rendering `name: type` is the one the repository's tests exercise). -/
inductive Param where
  | mk (name : String) (ty : Type')

end

mutual

/-- `Display` for `Type` (`src/ty.rs`). -/
def Type'.display : Type' → String
  | .Slice ty => "[" ++ Type'.display ty ++ "]"
  | .Array ty len => "[" ++ Type'.display ty ++ "; " ++ len.display ++ "]"
  | .Ptr p => Ptr.display p
  | .Ref r => Ref.display r
  | .BareFn f => BareFn.display f
  | .Never => "!"
  | .Tuple tys => "(" ++ Type'.displayList tys ++ ")"
  | .Path p => p.display
  | .TraitObject t => t.display
  | .ImplTrait i => i.display
  | .Infer => "_"
  | .ImplicitSelf => ""
  | .Err => "<Err>"

/-- `Display` for `MutTy` (`src/ty.rs`): `mut ` when mutable, then the
type. -/
def MutTy.display : MutTy → String
  | .mk mutable ty => (if mutable then "mut " else "") ++ Type'.display ty

/-- `Display` for `Ref` (`src/ty.rs`): `&`, the lifetime (if any)
followed by a space, then the `MutTy`. -/
def Ref.display : Ref → String
  | .mk lifetime ty =>
      "&" ++ (match lifetime with | some l => "'" ++ l ++ " " | none => "") ++
        MutTy.display ty

/-- `Display` for `Ptr` (`src/ty.rs`): `*{kind} {ty}`. -/
def Ptr.display : Ptr → String
  | .mk ty kind => "*" ++ kind.display ++ " " ++ Type'.display ty

/-- `Display` for `BareFn` (`src/ty.rs`): `fn(`, the comma-separated
inputs, `) -> `, the output; `generic_params` is not printed. -/
def BareFn.display : BareFn → String
  | .mk _ inputs output =>
      "fn(" ++ Param.displayList inputs ++ ") -> " ++ Type'.display output

/-- Modelled from the spec: a parameter prints as `name: type`. -/
def Param.display : Param → String
  | .mk name ty => name ++ ": " ++ Type'.display ty

/-- Comma-separated display of a type list (the `Tuple` join). -/
def Type'.displayList : List Type' → String
  | [] => ""
  | [t] => Type'.display t
  | t :: t2 :: ts => Type'.display t ++ ", " ++ Type'.displayList (t2 :: ts)

/-- Comma-separated display of a parameter list (the `BareFn` loop). -/
def Param.displayList : List Param → String
  | [] => ""
  | [p] => Param.display p
  | p :: p2 :: ps => Param.display p ++ ", " ++ Param.displayList (p2 :: ps)

end

mutual

/-- `From<Type> for TokenStream` (`src/ty.rs`). -/
def Type'.toTokens : Type' → TokenStream
  | .Slice ty =>
      [Token.openDelim .Bracket] ++ Type'.toTokens ty ++ [Token.closeDelim .Bracket]
  | .Array ty len =>
      [Token.openDelim .Bracket] ++ Type'.toTokens ty ++ [Token.semi] ++
        len.toTokens ++ [Token.closeDelim .Bracket]
  | .Ptr p => Ptr.toTokens p
  | .Ref r => Ref.toTokens r
  | .BareFn f => BareFn.toTokens f
  | .Never => [Token.notTok]
  | .Tuple tys =>
      [Token.openDelim .Parenthesis] ++ Type'.toTokensList tys ++
        [Token.closeDelim .Parenthesis]
  | .Path p => p.toTokens
  | .TraitObject t => t.toTokens
  | .ImplTrait i => i.toTokens
  | .Infer => [Token.ident "_"]
  | .ImplicitSelf => []
  | .Err => [Token.ident "<Err>"]

/-- `From<MutTy> for TokenStream` (`src/ty.rs`). -/
def MutTy.toTokens : MutTy → TokenStream
  | .mk mutable ty =>
      (if mutable then [Token.keyword .Mut] else []) ++ Type'.toTokens ty

/-- `From<Ref> for TokenStream` (`src/ty.rs`). -/
def Ref.toTokens : Ref → TokenStream
  | .mk lifetime ty =>
      [Token.binop .And] ++
        (match lifetime with | some l => [Token.lifetime l] | none => []) ++
        MutTy.toTokens ty

/-- `From<Ptr> for TokenStream` (`src/ty.rs`). -/
def Ptr.toTokens : Ptr → TokenStream
  | .mk ty kind => [Token.binop .Star] ++ kind.toTokens ++ Type'.toTokens ty

/-- `From<BareFn> for TokenStream` (`src/ty.rs`): `fn`, parenthesised
comma-separated inputs, `->`, the output; `generic_params` is not
lowered. -/
def BareFn.toTokens : BareFn → TokenStream
  | .mk _ inputs output =>
      [Token.keyword .Fn, Token.openDelim .Parenthesis] ++
        Param.toTokensList inputs ++
        [Token.closeDelim .Parenthesis, Token.rarrow] ++ Type'.toTokens output

/-- Modelled from the spec: a parameter lowers to `name`, `:`, type. -/
def Param.toTokens : Param → TokenStream
  | .mk name ty => [Token.ident name, Token.colon] ++ Type'.toTokens ty

/-- Comma-interleaved lowering of a type list (the `Tuple` loop). -/
def Type'.toTokensList : List Type' → TokenStream
  | [] => []
  | [t] => Type'.toTokens t
  | t :: t2 :: ts => Type'.toTokens t ++ [Token.comma] ++ Type'.toTokensList (t2 :: ts)

/-- Comma-interleaved lowering of a parameter list (the `BareFn` loop). -/
def Param.toTokensList : List Param → TokenStream
  | [] => []
  | [p] => Param.toTokens p
  | p :: p2 :: ps => Param.toTokens p ++ [Token.comma] ++ Param.toTokensList (p2 :: ps)

end

/-! ## Significant lexemes

`lexes` drops the space characters of a rendering; two renderings agree
up to whitespace placement exactly when their `lexes` agree. -/

/-- The significant characters of a string: everything but spaces. -/
def lexes (s : String) : List Char := s.data.filter (fun c => c != ' ')

/-- The significant characters of a token stream: the tokens' texts'
significant characters, concatenated. -/
def tsLexes (ts : TokenStream) : List Char := (ts.map (fun t => lexes t.text)).flatten

theorem lexes_append (a b : String) : lexes (a ++ b) = lexes a ++ lexes b := by
  simp [lexes, String.data_append, List.filter_append]

theorem tsLexes_nil : tsLexes [] = [] := rfl

theorem tsLexes_cons (t : Token) (ts : TokenStream) :
    tsLexes (t :: ts) = lexes t.text ++ tsLexes ts := rfl

theorem tsLexes_append (a b : TokenStream) :
    tsLexes (a ++ b) = tsLexes a ++ tsLexes b := by
  simp [tsLexes]

/-- Rendering a stream and then dropping spaces is the same as
concatenating the tokens' space-free texts: the rendering only ever
adds whitespace between token texts. -/
theorem lexes_render : ∀ ts : TokenStream, lexes (TokenStream.render ts) = tsLexes ts
  | [] => rfl
  | [t] => by simp [TokenStream.render, tsLexes]
  | t :: t2 :: ts => by
      have ih := lexes_render (t2 :: ts)
      cases hj : t.joint <;>
        simp [TokenStream.render, hj, lexes_append, ih, tsLexes_cons,
          show lexes " " = [] from rfl, show lexes "" = [] from rfl]

theorem lx_empty : lexes "" = [] := rfl

theorem lx_space : lexes " " = [] := rfl

theorem lx_lbrack : lexes "[" = ['['] := rfl

theorem lx_rbrack : lexes "]" = [']'] := rfl

theorem lx_semi_sp : lexes "; " = [';'] := rfl

theorem lx_semi : lexes ";" = [';'] := rfl

theorem lx_lpar : lexes "(" = ['('] := rfl

theorem lx_rpar : lexes ")" = [')'] := rfl

theorem lx_comma_sp : lexes ", " = [','] := rfl

theorem lx_comma : lexes "," = [','] := rfl

theorem lx_bang : lexes "!" = ['!'] := rfl

theorem lx_underscore : lexes "_" = ['_'] := rfl

theorem lx_err_mark : lexes "<Err>" = ['<', 'E', 'r', 'r', '>'] := rfl

theorem lx_mut_sp : lexes "mut " = ['m', 'u', 't'] := rfl

theorem lx_mut : lexes "mut" = ['m', 'u', 't'] := rfl

theorem lx_const : lexes "const" = ['c', 'o', 'n', 's', 't'] := rfl

theorem lx_amp : lexes "&" = ['&'] := rfl

theorem lx_star : lexes "*" = ['*'] := rfl

theorem lx_quote : lexes "'" = ['\''] := rfl

theorem lx_fn_lpar : lexes "fn(" = ['f', 'n', '('] := rfl

theorem lx_fn : lexes "fn" = ['f', 'n'] := rfl

theorem lx_rpar_arrow : lexes ") -> " = [')', '-', '>'] := rfl

theorem lx_arrow : lexes "->" = ['-', '>'] := rfl

theorem lx_colon_sp : lexes ": " = [':'] := rfl

theorem lx_colon : lexes ":" = [':'] := rfl

theorem lx_dyn_sp : lexes "dyn " = ['d', 'y', 'n'] := rfl

theorem lx_dyn : lexes "dyn" = ['d', 'y', 'n'] := rfl

theorem lx_impl_sp : lexes "impl " = ['i', 'm', 'p', 'l'] := rfl

theorem lx_impl : lexes "impl" = ['i', 'm', 'p', 'l'] := rfl

theorem lx_plus_sp : lexes " + " = ['+'] := rfl

theorem lx_plus : lexes "+" = ['+'] := rfl

theorem lx_modsep : lexes "::" = [':', ':'] := rfl

/-- Path segments joined by `::` have the same significant lexemes as
the joint ident/`::` token sequence. -/
theorem pathTokens_lexes : ∀ segs : List String,
    lexes (joinSepStr "::" segs) = tsLexes (pathTokens segs)
  | [] => rfl
  | [s] => by
      simp [joinSepStr, pathTokens, tsLexes_cons, tsLexes_nil, Token.text,
        Token.ident, TokenKind.text]
  | s :: s2 :: rest => by
      have ih := pathTokens_lexes (s2 :: rest)
      simp [joinSepStr, pathTokens, lexes_append, ih, tsLexes_cons, Token.text,
        Token.ident, Token.into_joint, TokenKind.text, lx_modsep]

theorem path_lexes_eq (p : Path) : lexes p.display = tsLexes p.toTokens :=
  pathTokens_lexes p.segments

theorem const_lexes_eq (c : Const) : lexes c.display = tsLexes c.toTokens := by
  simp [Const.display, Const.toTokens, tsLexes_cons, tsLexes_nil, Token.text,
    Token.lit, TokenKind.text]

theorem ptrKind_lexes_eq (k : PtrKind) : lexes k.display = tsLexes k.toTokens := by
  cases k <;>
    simp [PtrKind.display, PtrKind.toTokens, tsLexes_cons, tsLexes_nil, Token.text,
      Token.keyword, TokenKind.text]

theorem polyTraitRef_lexes_eq (tr : PolyTraitRef) :
    lexes tr.display = tsLexes tr.toTokens := by
  cases tr with
  | mk gps p => simpa [PolyTraitRef.display, PolyTraitRef.toTokens] using path_lexes_eq p

theorem genericBound_lexes_eq (b : GenericBound) :
    lexes b.display = tsLexes b.toTokens := by
  cases b with
  | Trait tr =>
      simpa [GenericBound.display, GenericBound.toTokens] using polyTraitRef_lexes_eq tr
  | Outlives l =>
      simp [GenericBound.display, GenericBound.toTokens, tsLexes_cons, tsLexes_nil,
        Token.text, Token.lifetime, TokenKind.text]

/-- Bound lists joined by ` + ` have the same significant lexemes as the
`+`-interleaved token lowering. -/
theorem bounds_lexes : ∀ bs : List GenericBound,
    lexes (joinSepStr " + " (bs.map GenericBound.display)) =
      tsLexes (TokenStream.joinSep (Token.binop .Plus) (bs.map GenericBound.toTokens))
  | [] => rfl
  | [b] => by simpa [joinSepStr, TokenStream.joinSep] using genericBound_lexes_eq b
  | b :: b2 :: rest => by
      have ih := bounds_lexes (b2 :: rest)
      have hb := genericBound_lexes_eq b
      simp only [List.map_cons] at ih
      simp [joinSepStr, TokenStream.joinSep, lexes_append, tsLexes_append, tsLexes_cons,
        hb, ih, Token.text, Token.binop, TokenKind.text, lx_plus_sp, lx_plus]

theorem traitObject_lexes_eq (t : TraitObject) :
    lexes t.display = tsLexes t.toTokens := by
  cases t with
  | mk d bounds =>
      have h := bounds_lexes bounds
      cases d <;>
        simp [TraitObject.display, TraitObject.toTokens, lexes_append, tsLexes_append,
          tsLexes_cons, h, Token.text, Token.keyword, TokenKind.text, lx_dyn_sp, lx_dyn,
          lx_empty]

theorem implTrait_lexes_eq (i : ImplTrait) :
    lexes i.display = tsLexes i.toTokens := by
  cases i with
  | mk bounds =>
      have h := bounds_lexes bounds
      simp [ImplTrait.display, ImplTrait.toTokens, lexes_append, tsLexes_append,
        tsLexes_cons, h, Token.text, Token.keyword, TokenKind.text, lx_impl_sp, lx_impl]

mutual

/-- Both printers of the `Type` family produce the same significant
lexemes. -/
theorem type_lexes_eq : ∀ t : Type', lexes t.display = tsLexes t.toTokens
  | .Slice ty => by
      have ih := type_lexes_eq ty
      simp [Type'.display, Type'.toTokens, lexes_append, tsLexes_append, tsLexes_cons,
        tsLexes_nil, ih, Token.text, Token.openDelim, Token.closeDelim, TokenKind.text,
        lx_lbrack, lx_rbrack]
  | .Array ty len => by
      have ih := type_lexes_eq ty
      have hl := const_lexes_eq len
      simp [Type'.display, Type'.toTokens, lexes_append, tsLexes_append, tsLexes_cons,
        tsLexes_nil, ih, hl, Token.text, Token.openDelim, Token.closeDelim, Token.semi,
        TokenKind.text, lx_lbrack, lx_rbrack, lx_semi_sp, lx_semi]
  | .Ptr p => by
      have ih := ptr_lexes_eq p
      simpa [Type'.display, Type'.toTokens] using ih
  | .Ref r => by
      have ih := ref_lexes_eq r
      simpa [Type'.display, Type'.toTokens] using ih
  | .BareFn f => by
      have ih := bareFn_lexes_eq f
      simpa [Type'.display, Type'.toTokens] using ih
  | .Never => by
      simp [Type'.display, Type'.toTokens, tsLexes_cons, tsLexes_nil, Token.text,
        Token.notTok, TokenKind.text]
  | .Tuple tys => by
      have ih := type_lexesList_eq tys
      simp [Type'.display, Type'.toTokens, lexes_append, tsLexes_append, tsLexes_cons,
        tsLexes_nil, ih, Token.text, Token.openDelim, Token.closeDelim, TokenKind.text,
        lx_lpar, lx_rpar]
  | .Path p => by
      have h := path_lexes_eq p
      simpa [Type'.display, Type'.toTokens] using h
  | .TraitObject t => by
      have h := traitObject_lexes_eq t
      simpa [Type'.display, Type'.toTokens] using h
  | .ImplTrait i => by
      have h := implTrait_lexes_eq i
      simpa [Type'.display, Type'.toTokens] using h
  | .Infer => by
      simp [Type'.display, Type'.toTokens, tsLexes_cons, tsLexes_nil, Token.text,
        Token.ident, TokenKind.text]
  | .ImplicitSelf => rfl
  | .Err => by
      simp [Type'.display, Type'.toTokens, tsLexes_cons, tsLexes_nil, Token.text,
        Token.ident, TokenKind.text]

/-- `MutTy`: both printers produce the same significant lexemes. -/
theorem mutTy_lexes_eq : ∀ m : MutTy, lexes m.display = tsLexes m.toTokens
  | .mk mutable ty => by
      have ih := type_lexes_eq ty
      cases mutable <;>
        simp [MutTy.display, MutTy.toTokens, lexes_append, tsLexes_append, tsLexes_cons,
          ih, Token.text, Token.keyword, TokenKind.text, lx_mut_sp, lx_mut, lx_empty]

/-- `Ref`: both printers produce the same significant lexemes. -/
theorem ref_lexes_eq : ∀ r : Ref, lexes r.display = tsLexes r.toTokens
  | .mk lifetime ty => by
      have ih := mutTy_lexes_eq ty
      cases lifetime <;>
        simp [Ref.display, Ref.toTokens, lexes_append, tsLexes_append, tsLexes_cons,
          ih, Token.text, Token.binop, Token.lifetime, TokenKind.text, lx_amp,
          lx_quote, lx_space, lx_empty]

/-- `Ptr`: both printers produce the same significant lexemes. -/
theorem ptr_lexes_eq : ∀ p : Ptr, lexes p.display = tsLexes p.toTokens
  | .mk ty kind => by
      have ih := type_lexes_eq ty
      have hk := ptrKind_lexes_eq kind
      simp [Ptr.display, Ptr.toTokens, lexes_append, tsLexes_append, tsLexes_cons,
        ih, hk, Token.text, Token.binop, TokenKind.text, lx_star, lx_space]

/-- `BareFn`: both printers produce the same significant lexemes. -/
theorem bareFn_lexes_eq : ∀ f : BareFn, lexes f.display = tsLexes f.toTokens
  | .mk gps inputs output => by
      have ih := type_lexes_eq output
      have hp := param_lexesList_eq inputs
      simp [BareFn.display, BareFn.toTokens, lexes_append, tsLexes_append, tsLexes_cons,
        ih, hp, Token.text, Token.keyword, Token.openDelim, Token.closeDelim,
        Token.rarrow, TokenKind.text, lx_fn_lpar, lx_fn, lx_lpar, lx_rpar_arrow,
        lx_rpar, lx_arrow]

/-- `Param`: both printers produce the same significant lexemes. -/
theorem param_lexes_eq : ∀ p : Param, lexes p.display = tsLexes p.toTokens
  | .mk name ty => by
      have ih := type_lexes_eq ty
      simp [Param.display, Param.toTokens, lexes_append, tsLexes_append, tsLexes_cons,
        ih, Token.text, Token.ident, Token.colon, TokenKind.text, lx_colon_sp, lx_colon]

/-- Type lists: the comma-joined display and the comma-interleaved
lowering produce the same significant lexemes. -/
theorem type_lexesList_eq : ∀ tys : List Type',
    lexes (Type'.displayList tys) = tsLexes (Type'.toTokensList tys)
  | [] => rfl
  | [t] => by
      have ih := type_lexes_eq t
      simpa [Type'.displayList, Type'.toTokensList] using ih
  | t :: t2 :: ts => by
      have ih := type_lexes_eq t
      have ihs := type_lexesList_eq (t2 :: ts)
      simp [Type'.displayList, Type'.toTokensList, lexes_append, tsLexes_append,
        tsLexes_cons, ih, ihs, Token.text, Token.comma, TokenKind.text, lx_comma_sp,
        lx_comma]

/-- Parameter lists: the comma-joined display and the comma-interleaved
lowering produce the same significant lexemes. -/
theorem param_lexesList_eq : ∀ ps : List Param,
    lexes (Param.displayList ps) = tsLexes (Param.toTokensList ps)
  | [] => rfl
  | [p] => by
      have ih := param_lexes_eq p
      simpa [Param.displayList, Param.toTokensList] using ih
  | p :: p2 :: ps => by
      have ih := param_lexes_eq p
      have ihs := param_lexesList_eq (p2 :: ps)
      simp [Param.displayList, Param.toTokensList, lexes_append, tsLexes_append,
        tsLexes_cons, ih, ihs, Token.text, Token.comma, TokenKind.text, lx_comma_sp,
        lx_comma]

end

/-- C4: for every node of the `Type` family, the significant lexemes of
the `Display` rendering equal the significant lexemes of lowering the
node to a `TokenStream` and rendering that stream — the two printers
differ at most in whitespace placement. -/
theorem c4_display_tokenstream_agree :
    ∀ t : Type',
      lexes (Type'.display t) = lexes (TokenStream.render (Type'.toTokens t)) := by
  intro t
  rw [lexes_render]
  exact type_lexes_eq t

/-- C6: every reference and every pointer type prints the mutability
keyword (`mut ` when mutable, nothing when immutable for references;
`mut`/`const` for pointers) before the pointee type, and a reference
carrying a lifetime prints the lifetime between the `&` sigil and the
mutability keyword; concretely `&'static mut T` and `*mut T`. -/
theorem c6_ref_ptr_layout :
    (∀ (l : String) (mutable : Bool) (t : Type'),
      (Ref.mk (some l) (MutTy.mk mutable t)).display =
        "&" ++ ("'" ++ l ++ " ") ++ ((if mutable then "mut " else "") ++ t.display))
    ∧ (∀ (mutable : Bool) (t : Type'),
      (Ref.mk none (MutTy.mk mutable t)).display =
        "&" ++ ((if mutable then "mut " else "") ++ t.display))
    ∧ (∀ (k : PtrKind) (t : Type'),
      (Ptr.mk t k).display =
        "*" ++ (match k with | .Const => "const" | .Mut => "mut") ++ " " ++ t.display)
    ∧ (Type'.Ref (.mk (some "static") (.mk true (Type'.Path ⟨["T"]⟩)))).display =
        "&'static mut T"
    ∧ (Type'.Ptr (.mk (Type'.Path ⟨["T"]⟩) .Mut)).display = "*mut T"
    ∧ (Type'.Ptr (.mk (Type'.Path ⟨["T"]⟩) .Const)).display = "*const T" := by
  refine ⟨fun l mutable t => ?_, fun mutable t => ?_, fun k t => ?_,
    by decide, by decide, by decide⟩
  · cases mutable <;> simp [Ref.display, MutTy.display]
  · cases mutable <;> simp [Ref.display, MutTy.display]
  · cases k <;> simp [Ptr.display, PtrKind.display]

/-- C7: the implicit-self variant renders as empty text under both
printers, and the error-placeholder variant renders as the `<Err>`
sentinel under both printers (rendering it never fails: both printers
are total functions). -/
theorem c7_implicit_self_and_err :
    Type'.ImplicitSelf.display = ""
    ∧ TokenStream.render (Type'.toTokens .ImplicitSelf) = ""
    ∧ Type'.Err.display = "<Err>"
    ∧ TokenStream.render (Type'.toTokens .Err) = "<Err>" := by
  refine ⟨by decide, by decide, by decide, by decide⟩

/-- C8 as stated is false: a trait-object whose bound list is empty but
whose `is_dyn` flag is set renders as `"dyn "`, not as empty text. -/
theorem c8_counterexample :
    (Type'.TraitObject ⟨true, []⟩).display = "dyn "
    ∧ (Type'.TraitObject ⟨true, []⟩).display ≠ "" := by
  refine ⟨by decide, by decide⟩

/-- C8 amended: a trait-object type without the `dyn` keyword and with
an empty bound list renders as empty text (with `dyn` it renders as
`"dyn "`), and an impl-trait type with an empty bound list renders as
exactly `"impl "`, trailing space preserved. -/
theorem c8_empty_bounds :
    (Type'.TraitObject ⟨false, []⟩).display = ""
    ∧ (Type'.TraitObject ⟨true, []⟩).display = "dyn "
    ∧ (Type'.ImplTrait ⟨[]⟩).display = "impl " := by
  refine ⟨by decide, by decide, by decide⟩

/-- C10: both printers of `BareFn` ignore `generic_params`, and both
printers of `PolyTraitRef` ignore `bound_generic_params`: two values
differing only in those fields print identically. -/
theorem c10_generic_params_ignored :
    (∀ (g1 g2 : List GenericParam) (inputs : List Param) (output : Type'),
      (BareFn.mk g1 inputs output).display = (BareFn.mk g2 inputs output).display
      ∧ (BareFn.mk g1 inputs output).toTokens = (BareFn.mk g2 inputs output).toTokens)
    ∧ (∀ (g1 g2 : List GenericParam) (p : Path),
      (PolyTraitRef.mk g1 p).display = (PolyTraitRef.mk g2 p).display
      ∧ (PolyTraitRef.mk g1 p).toTokens = (PolyTraitRef.mk g2 p).toTokens) := by
  constructor
  · intro g1 g2 inputs output
    exact ⟨by simp [BareFn.display], by simp [BareFn.toTokens]⟩
  · intro g1 g2 p
    exact ⟨by simp [PolyTraitRef.display], by simp [PolyTraitRef.toTokens]⟩

/-! ## Binary-expression precedence printer (modelled from the spec) -/

/-- Modelled from the spec: binary-operator kinds of the
binary-expression subset (`expr.rs` is absent from `src/`); `Add` and
`Mul` are the operators the spec's examples exercise. -/
inductive BinOpKind where
  | Add
  | Mul
deriving DecidableEq, Repr

/-- Modelled from the spec: operator associativity (left/right). -/
inductive AssocKind where
  | left
  | right
deriving DecidableEq, Repr

/-- Modelled from the spec: each operator-bearing variant carries a
precedence level; multiplication binds tighter than addition. -/
def BinOpKind.prec : BinOpKind → Nat
  | .Add => 4
  | .Mul => 5

/-- Modelled from the spec: both arithmetic operators associate to the
left. -/
def BinOpKind.assoc : BinOpKind → AssocKind := fun _ => AssocKind.left

/-- Modelled from the spec: operator glyphs. -/
def BinOpKind.display : BinOpKind → String
  | .Add => "+"
  | .Mul => "*"

/-- Modelled from the spec: the binary-expression subset of the
expression model — literal leaves and binary nodes (`expr.rs` is absent
from `src/`). -/
inductive Expr where
  | lit (s : String)
  | bin (op : BinOpKind) (lhs rhs : Expr)
deriving DecidableEq, Repr

/-- Modelled from the spec: a child operand is wrapped in parentheses
iff its own precedence is strictly lower than the parent's required
minimum, or the precedences are equal and the child sits on the side
opposite the parent's associativity; literals are atomic and are never
wrapped. -/
def needsParens (parentPrec : Nat) (parentAssoc : AssocKind) (childIsLeft : Bool) :
    Expr → Bool
  | .lit _ => false
  | .bin op _ _ =>
      op.prec < parentPrec ||
        (op.prec == parentPrec &&
          (match parentAssoc with
           | .left => !childIsLeft
           | .right => childIsLeft))

/-- Modelled from the spec: the minimal-parenthesization text printer on
the binary-expression subset. -/
def Expr.display : Expr → String
  | .lit s => s
  | .bin op l r =>
      (if needsParens op.prec op.assoc true l then "(" ++ Expr.display l ++ ")"
        else Expr.display l)
      ++ " " ++ op.display ++ " " ++
      (if needsParens op.prec op.assoc false r then "(" ++ Expr.display r ++ ")"
        else Expr.display r)

/-- C1: the text printer wraps a child operand in parentheses iff the
child's precedence is strictly lower than the parent's required minimum,
or the precedences are equal and the child sits on the side opposite the
parent operator's associativity; consequently a left-nested chain of
additions prints as `1 + 2 + 3`, an addition under a multiplication
prints as `(1 + 2) * 3`, and a multiplication as left operand of an
addition prints as `1 * 2 + 3`. -/
theorem c1_precedence_parens :
    (∀ (p : BinOpKind) (isLeft : Bool) (c : Expr),
      needsParens p.prec p.assoc isLeft c = true ↔
        ∃ cop cl cr, c = Expr.bin cop cl cr ∧
          (cop.prec < p.prec ∨
            (cop.prec = p.prec ∧
              ((p.assoc = AssocKind.left ∧ isLeft = false)
                ∨ (p.assoc = AssocKind.right ∧ isLeft = true)))))
    ∧ (Expr.bin .Add (Expr.bin .Add (.lit "1") (.lit "2")) (.lit "3")).display =
        "1 + 2 + 3"
    ∧ (Expr.bin .Mul (Expr.bin .Add (.lit "1") (.lit "2")) (.lit "3")).display =
        "(1 + 2) * 3"
    ∧ (Expr.bin .Add (Expr.bin .Mul (.lit "1") (.lit "2")) (.lit "3")).display =
        "1 * 2 + 3" := by
  refine ⟨?_, by decide, by decide, by decide⟩
  intro p isLeft c
  cases c with
  | lit s => simp [needsParens]
  | bin cop cl cr =>
      cases p <;> cases isLeft <;> cases cop <;>
        simp [needsParens, BinOpKind.prec, BinOpKind.assoc]

end Ruast
